import Mathlib

/-!
Verification of the RustBucket virtual machine and its two-pass assembler.

The development shallowly embeds the Rust sources:
* `src/vm/cpu.rs` (CPU state, fetch, execute, run) — machine bytes are `Nat`
  values kept below 256 by explicit `% 256` arithmetic; Rust `Vec` indexing
  that would panic out of bounds is modelled by an explicit `panic` outcome;
* `src/assembler.rs` (the monolithic two-pass assembler);
* `src/assembler/instruction.rs` (`Instruction::encode` / `FromStr`).
Assembly text is modelled as `String` / `List Char`; the string helpers below
implement the exact splitting/trimming behaviour of the Rust code with
structural recursion so that everything evaluates.
-/

/-! ### Character and string helpers (ASCII fragment of the Rust `str` API) -/

/-- ASCII whitespace test, the fragment of Rust `char::is_whitespace` used by the sources. -/
def isWS (ch : Char) : Bool :=
  ch == ' ' || ch == '\t' || ch == '\r' || ch == '\n'

/-- Split a character list on a separator character, like Rust `str::split(sep)`. -/
def splitOnChar (sep : Char) : List Char → List (List Char)
  | [] => [[]]
  | ch :: rest =>
    if ch = sep then [] :: splitOnChar sep rest
    else
      match splitOnChar sep rest with
      | [] => [[ch]]
      | h :: t => (ch :: h) :: t

/-- Split on a character predicate (chunks between separator characters). -/
def splitPred (p : Char → Bool) : List Char → List (List Char)
  | [] => [[]]
  | ch :: rest =>
    if p ch then [] :: splitPred p rest
    else
      match splitPred p rest with
      | [] => [[ch]]
      | h :: t => (ch :: h) :: t

/-- Rust `str::split_whitespace`: split on whitespace and drop empty fragments. -/
def splitWhitespaceChars (l : List Char) : List (List Char) :=
  (splitPred isWS l).filter (· ≠ [])

/-- Rust `str::trim` (ASCII whitespace). -/
def trimChars (l : List Char) : List Char :=
  ((l.dropWhile isWS).reverse.dropWhile isWS).reverse

/-- Decimal digit value of a character, if any. -/
def decDigit? (ch : Char) : Option Nat :=
  if '0' ≤ ch ∧ ch ≤ '9' then some (ch.toNat - 48) else none

/-- Hexadecimal digit value of a character, if any. -/
def hexDigit? (ch : Char) : Option Nat :=
  if '0' ≤ ch ∧ ch ≤ '9' then some (ch.toNat - 48)
  else if 'a' ≤ ch ∧ ch ≤ 'f' then some (ch.toNat - 87)
  else if 'A' ≤ ch ∧ ch ≤ 'F' then some (ch.toNat - 55)
  else none

/-- Accumulate decimal digits; fails on any non-digit. -/
def parseDecAux : List Char → Nat → Option Nat
  | [], acc => some acc
  | ch :: rest, acc =>
    match decDigit? ch with
    | some d => parseDecAux rest (acc * 10 + d)
    | none => none

/-- Unsigned decimal literal as in Rust `u8::from_str` (optional leading `+`, else digits only);
the 8-bit range check is done in `parseDecU8`. -/
def parseDecNat : List Char → Option Nat
  | [] => none
  | '+' :: rest =>
    match rest with
    | [] => none
    | _ => parseDecAux rest 0
  | l => parseDecAux l 0

/-- Rust `u8::from_str`: decimal digits, value must fit in 8 bits. -/
def parseDecU8 (l : List Char) : Option Nat :=
  match parseDecNat l with
  | some n => if n ≤ 255 then some n else none
  | none => none

/-- Accumulate hexadecimal digits; fails on any non-digit. -/
def parseHexAux : List Char → Nat → Option Nat
  | [], acc => some acc
  | ch :: rest, acc =>
    match hexDigit? ch with
    | some d => parseHexAux rest (acc * 16 + d)
    | none => none

/-- Rust `u8::from_str_radix(_, 16)` (optional leading `+`). -/
def parseHexNat : List Char → Option Nat
  | [] => none
  | '+' :: rest =>
    match rest with
    | [] => none
    | _ => parseHexAux rest 0
  | l => parseHexAux l 0

/-- Hexadecimal literal limited to 8 bits. -/
def parseHexU8 (l : List Char) : Option Nat :=
  match parseHexNat l with
  | some n => if n ≤ 255 then some n else none
  | none => none

/-- Decimal digit character for `n < 10`. -/
def digitChar (n : Nat) : Char := Char.ofNat (48 + n)

/-- Fueled decimal rendering (structural so that it evaluates in the kernel). -/
def natCharsAux : Nat → Nat → List Char
  | 0, _ => []
  | fuel + 1, n =>
    if n < 10 then [digitChar n]
    else natCharsAux fuel (n / 10) ++ [digitChar (n % 10)]

/-- Decimal rendering of a natural number. -/
def natChars (n : Nat) : List Char := natCharsAux (n + 1) n

/-! ### VM configuration and errors (`src/vm/mod.rs`, `src/vm/error.rs`) -/

/-- `VMConfig` from `src/vm/mod.rs` (fields in source order). -/
structure VMConfig where
  memory_size : Nat
  debug : Bool
  stack_size : Nat
  num_registers : Nat
  pc_start : Nat
  sp_start : Nat
deriving DecidableEq, Repr

/-- `VMConfig::default()`: 256 bytes of memory, 64-byte stack region, 8 registers. -/
def VMConfig.default : VMConfig :=
  { memory_size := 256, debug := false, stack_size := 64
    num_registers := 8, pc_start := 0, sp_start := 255 }

/-- `VMError` from `src/vm/error.rs`. -/
inductive VMError
  | InvalidRegister (index : Nat)
  | InvalidMemoryAccess (addr : Nat)
  | StackOverflow
  | StackUnderflow
  | DivisionByZero
  | InvalidOpcode (b : Nat)
  | ProgramComplete
deriving DecidableEq, Repr

/-- `Opcode` from `src/vm/opcode.rs`, with the `Jne` variant used by `cpu.rs`. -/
inductive Opcode
  | Inc (r : Nat)
  | Dec (r : Nat)
  | Out (r : Nat)
  | Mov (dst src : Nat)
  | Add (dst src : Nat)
  | Sub (dst src : Nat)
  | Mul (dst src : Nat)
  | Div (dst src : Nat)
  | Cmp (r1 r2 : Nat)
  | Load (r : Nat)
  | Store (r : Nat)
  | LdIdx (r : Nat)
  | StIdx (r : Nat)
  | Push (r : Nat)
  | Pop (r : Nat)
  | Call
  | Ret
  | Jmp
  | Jeq
  | Jgt
  | Jne
  | Halt
  | Unknown (b : Nat)
deriving DecidableEq, Repr

/-! ### CPU state (`src/vm/cpu.rs`) -/

/-- The CPU record of `src/vm/cpu.rs`. Registers and memory are byte vectors. -/
structure CPU where
  registers : List Nat
  pc : Nat
  memory : List Nat
  sp : Nat
  flags : Nat
  config : VMConfig
  call_stack : List Nat
deriving DecidableEq, Repr

/-- `CPU::new`: zeroed registers and memory, `pc = pc_start`,
`sp = memory_size - stack_size` (the "calculated stack pointer"). -/
def CPU.new (config : VMConfig) : CPU :=
  { registers := List.replicate config.num_registers 0
    pc := config.pc_start
    memory := List.replicate config.memory_size 0
    sp := config.memory_size - config.stack_size
    flags := 0
    config := config
    call_stack := [] }

/-- `CPU::load_program`: copy the program to the front of memory.
`none` models the Rust panic when the program is longer than memory. -/
def CPU.load_program (c : CPU) (program : List Nat) : Option CPU :=
  if program.length ≤ c.memory.length then
    some { c with memory := program ++ c.memory.drop program.length }
  else none

/-- `self.memory[i]` as an optional read; `none` is the Rust out-of-bounds panic. -/
def readMemO (c : CPU) (i : Nat) : Option Nat := c.memory[i]?

/-- `self.registers[i]` as an optional read; `none` is the Rust out-of-bounds panic. -/
def readRegO (c : CPU) (i : Nat) : Option Nat := c.registers[i]?

/-- `CPU::fetch`. Returns the decoded opcode together with the post-fetch `pc`
(the only field `fetch` mutates); `none` models a panic reading an operand
byte past the end of memory. -/
def fetch (c : CPU) : Option (Opcode × Nat) :=
  if c.pc ≥ c.memory.length then some (Opcode.Halt, c.pc)
  else
    match readMemO c c.pc with
    | none => none
    | some b =>
      let p1 := c.pc + 1
      if 0x01 ≤ b ∧ b ≤ 0x03 then
        match readMemO c p1 with
        | none => none
        | some r =>
          some (if b = 0x01 then Opcode.Inc r
                else if b = 0x02 then Opcode.Dec r
                else Opcode.Out r, p1 + 1)
      else if b = 0x04 ∨ (0x30 ≤ b ∧ b ≤ 0x33) ∨ b = 0x43 then
        match readMemO c p1, readMemO c (p1 + 1) with
        | some dst, some src =>
          some (if b = 0x04 then Opcode.Mov dst src
                else if b = 0x30 then Opcode.Add dst src
                else if b = 0x31 then Opcode.Sub dst src
                else if b = 0x32 then Opcode.Mul dst src
                else if b = 0x33 then Opcode.Div dst src
                else Opcode.Cmp dst src, p1 + 2)
        | _, _ => none
      else if 0x20 ≤ b ∧ b ≤ 0x23 then
        match readMemO c p1 with
        | none => none
        | some r =>
          some (if b = 0x20 then Opcode.Load r
                else if b = 0x21 then Opcode.Store r
                else if b = 0x22 then Opcode.LdIdx r
                else Opcode.StIdx r, p1 + 1)
      else if 0x40 ≤ b ∧ b ≤ 0x44 then
        some (if b = 0x40 then Opcode.Jmp
              else if b = 0x41 then Opcode.Jeq
              else if b = 0x42 then Opcode.Jgt
              else Opcode.Jne, p1)
      else if b = 0x10 ∨ b = 0x11 then
        match readMemO c p1 with
        | none => none
        | some r => some (if b = 0x10 then Opcode.Push r else Opcode.Pop r, p1 + 1)
      else if b = 0x12 then some (Opcode.Call, p1)
      else if b = 0x13 then some (Opcode.Ret, p1)
      else if b = 0xFF then some (Opcode.Halt, p1)
      else some (Opcode.Unknown b, p1)

/-- Outcome of `CPU::execute`. `err` keeps the CPU state at the `Err` return
(Rust leaves `self` observable); `panic` models a Rust index-out-of-bounds panic. -/
inductive StepR
  | ok (c : CPU)
  | err (e : VMError) (c : CPU)
  | panic
deriving DecidableEq, Repr

/-- `CPU::execute`, arm for arm from `src/vm/cpu.rs`.
8-bit wrapping arithmetic is `% 256` on `Nat`. -/
def execute (c : CPU) (op : Opcode) : StepR :=
  match op with
  | Opcode.Inc r =>
    if r ≥ c.config.num_registers then StepR.err (VMError.InvalidRegister r) c
    else
      match readRegO c r with
      | some v => StepR.ok { c with registers := c.registers.set r ((v + 1) % 256) }
      | none => StepR.panic
  | Opcode.Dec r =>
    if r ≥ c.config.num_registers then StepR.err (VMError.InvalidRegister r) c
    else
      match readRegO c r with
      | some v => StepR.ok { c with registers := c.registers.set r ((v + 255) % 256) }
      | none => StepR.panic
  | Opcode.Out r =>
    match readRegO c r with
    | some _ => StepR.ok c
    | none => StepR.panic
  | Opcode.Mov dst src =>
    if dst < c.registers.length then
      StepR.ok { c with registers := c.registers.set dst src }
    else StepR.panic
  | Opcode.Add dst src =>
    match readRegO c dst, readRegO c src with
    | some vd, some vs =>
      StepR.ok { c with registers := c.registers.set dst ((vd + vs) % 256) }
    | _, _ => StepR.panic
  | Opcode.Sub dst src =>
    match readRegO c dst, readRegO c src with
    | some vd, some vs =>
      StepR.ok { c with registers := c.registers.set dst ((vd + (256 - vs % 256)) % 256) }
    | _, _ => StepR.panic
  | Opcode.Mul dst src =>
    match readRegO c dst, readRegO c src with
    | some vd, some vs =>
      StepR.ok { c with registers := c.registers.set dst ((vd * vs) % 256) }
    | _, _ => StepR.panic
  | Opcode.Div dst src =>
    match readRegO c src with
    | none => StepR.panic
    | some vs =>
      if vs = 0 then StepR.err VMError.DivisionByZero c
      else
        match readRegO c dst with
        | some vd => StepR.ok { c with registers := c.registers.set dst (vd / vs) }
        | none => StepR.panic
  | Opcode.Cmp r1 r2 =>
    match readRegO c r1, readRegO c r2 with
    | some v1, some v2 =>
      let f1 := if v1 = v2 then c.flags ||| 1 else c.flags &&& 254
      let f2 := if v1 > v2 then f1 ||| 2 else f1 &&& 253
      StepR.ok { c with flags := f2 }
    | _, _ => StepR.panic
  | Opcode.Jmp =>
    match readMemO c c.pc with
    | some addr => StepR.ok { c with pc := addr }
    | none => StepR.panic
  | Opcode.Jeq =>
    match readMemO c c.pc with
    | some addr =>
      StepR.ok { c with pc := if c.flags &&& 1 ≠ 0 then addr else c.pc + 1 }
    | none => StepR.panic
  | Opcode.Jgt =>
    match readMemO c c.pc with
    | some addr =>
      StepR.ok { c with pc := if c.flags &&& 2 ≠ 0 then addr else c.pc + 1 }
    | none => StepR.panic
  | Opcode.Jne =>
    match readMemO c c.pc with
    | some addr =>
      StepR.ok { c with pc := if c.flags &&& 1 = 0 then addr else c.pc + 1 }
    | none => StepR.panic
  | Opcode.Call =>
    match readMemO c c.pc with
    | some addr =>
      StepR.ok { c with pc := addr, call_stack := (c.pc + 1) :: c.call_stack }
    | none => StepR.panic
  | Opcode.Ret =>
    match c.call_stack with
    | [] => StepR.ok c
    | a :: rest => StepR.ok { c with pc := a, call_stack := rest }
  | Opcode.Push r =>
    if c.sp = 0 then StepR.err VMError.StackOverflow c
    else
      match readRegO c r with
      | some v =>
        if c.sp - 1 < c.memory.length then
          StepR.ok { c with sp := c.sp - 1, memory := c.memory.set (c.sp - 1) v }
        else StepR.panic
      | none => StepR.panic
  | Opcode.Pop r =>
    if c.sp ≥ c.memory.length then StepR.err VMError.StackUnderflow c
    else
      match readMemO c c.sp with
      | some v =>
        if r < c.registers.length then
          StepR.ok { c with registers := c.registers.set r v, sp := c.sp + 1 }
        else StepR.panic
      | none => StepR.panic
  | Opcode.Load r =>
    match readMemO c c.pc with
    | some addr =>
      let c1 := { c with pc := c.pc + 1 }
      if addr ≥ c1.memory.length then StepR.err (VMError.InvalidMemoryAccess addr) c1
      else
        match readMemO c1 addr with
        | some v =>
          if r < c1.registers.length then
            StepR.ok { c1 with registers := c1.registers.set r v }
          else StepR.panic
        | none => StepR.panic
    | none => StepR.panic
  | Opcode.Store r =>
    match readMemO c c.pc with
    | some addr =>
      let c1 := { c with pc := c.pc + 1 }
      if addr ≥ c1.memory.length then StepR.err (VMError.InvalidMemoryAccess addr) c1
      else
        match readRegO c1 r with
        | some v => StepR.ok { c1 with memory := c1.memory.set addr v }
        | none => StepR.panic
    | none => StepR.panic
  | Opcode.LdIdx r =>
    match readMemO c c.pc with
    | some base =>
      let c1 := { c with pc := c.pc + 1 }
      match readRegO c1 1 with
      | some idx =>
        let addr := base + idx
        if addr ≥ c1.memory.length then StepR.err (VMError.InvalidMemoryAccess addr) c1
        else
          match readMemO c1 addr with
          | some v =>
            if r < c1.registers.length then
              StepR.ok { c1 with registers := c1.registers.set r v }
            else StepR.panic
          | none => StepR.panic
      | none => StepR.panic
    | none => StepR.panic
  | Opcode.StIdx r =>
    match readMemO c c.pc with
    | some base =>
      let c1 := { c with pc := c.pc + 1 }
      match readRegO c1 1 with
      | some idx =>
        let addr := base + idx
        if addr ≥ c1.memory.length then StepR.err (VMError.InvalidMemoryAccess addr) c1
        else
          match readRegO c1 r with
          | some v => StepR.ok { c1 with memory := c1.memory.set addr v }
          | none => StepR.panic
      | none => StepR.panic
    | none => StepR.panic
  | Opcode.Unknown b => StepR.err (VMError.InvalidOpcode b) c
  | Opcode.Halt => StepR.ok { c with pc := c.memory.length }

/-- Outcome of `CPU::run`, with a fuel bound to make the loop total:
`fuelOut` exposes the intermediate state when the fuel runs out. -/
inductive RunR
  | ok (c : CPU)
  | err (e : VMError) (c : CPU)
  | panic
  | fuelOut (c : CPU)
deriving DecidableEq, Repr

/-- `CPU::run`: `while pc < memory.len() { execute(fetch()) ? }`. -/
def run : Nat → CPU → RunR
  | 0, c => RunR.fuelOut c
  | fuel + 1, c =>
    if c.pc < c.memory.length then
      match fetch c with
      | none => RunR.panic
      | some (op, p) =>
        match execute { c with pc := p } op with
        | StepR.ok c2 => run fuel c2
        | StepR.err e c2 => RunR.err e c2
        | StepR.panic => RunR.panic
    else RunR.ok c

/-- The CPU state carried by a (non-panicking) `run` outcome. -/
def runStateOf : RunR → Option CPU
  | RunR.ok c => some c
  | RunR.err _ c => some c
  | RunR.panic => none
  | RunR.fuelOut c => some c

/-! ### Assembler errors and instructions (`src/assembler/error.rs`, shared) -/

/-- `AssemblerError`; the union of the variants of `src/assembler.rs` and
`src/assembler/error.rs` (the latter adds `InvalidAddress` and `SyntaxError`). -/
inductive AssemblerError
  | InvalidInstruction (s : String)
  | InvalidRegister (s : String)
  | InvalidValue (s : String)
  | InvalidLabel (s : String)
  | UndefinedLabel (s : String)
  | InvalidNumberOfOperands (instruction : String) (expected got : Nat)
  | InvalidAddress (s : String)
  | SyntaxError (s : String)
deriving DecidableEq, Repr

/-- `Instruction`: an upper-cased mnemonic and its operand tokens. -/
structure Instruction where
  opcode : String
  operands : List String
deriving DecidableEq, Repr

/-! ### `src/assembler/instruction.rs`: helpers, `Instruction::encode`, `FromStr` -/

/-- File-level `parse_register` of `instruction.rs`: `r` followed by a `u8` below 8. -/
def parse_register (reg : String) : Except AssemblerError Nat :=
  match reg.data with
  | 'r' :: rest =>
    match parseDecU8 rest with
    | some n =>
      if n ≥ 8 then Except.error (AssemblerError.InvalidRegister reg)
      else Except.ok n
    | none => Except.error (AssemblerError.InvalidRegister reg)
  | _ => Except.error (AssemblerError.InvalidRegister reg)

/-- File-level `parse_value` of `instruction.rs`: `0x`-hex or decimal `u8`. -/
def parse_value (val : String) : Except AssemblerError Nat :=
  match val.data with
  | '0' :: 'x' :: rest =>
    match parseHexU8 rest with
    | some n => Except.ok n
    | none => Except.error (AssemblerError.InvalidValue val)
  | l =>
    match parseDecU8 l with
    | some n => Except.ok n
    | none => Except.error (AssemblerError.InvalidValue val)

/-- `check_operand_count` of `instruction.rs`. -/
def check_operand_count (inst : Instruction) (expected : Nat) : Except AssemblerError Unit :=
  if inst.operands.length ≠ expected then
    Except.error (AssemblerError.InvalidNumberOfOperands inst.opcode expected inst.operands.length)
  else Except.ok ()

/-- `Instruction::encode` of `src/assembler/instruction.rs`, arm for arm.
Note the source has no arms for INC/DEC/OUT or the arithmetic mnemonics. -/
def Instruction.encode (i : Instruction) : Except AssemblerError (List Nat) :=
  match i.opcode with
  | "MOV" => do
    check_operand_count i 2
    let dst ← parse_register (i.operands.getD 0 "")
    let src ←
      if (i.operands.getD 1 "").data.head? = some 'r' then
        parse_register (i.operands.getD 1 "")
      else parse_value (i.operands.getD 1 "")
    Except.ok [0x04, dst, src]
  | "STORE" => do
    check_operand_count i 2
    let reg ← parse_register (i.operands.getD 0 "")
    let addr ← parse_value (i.operands.getD 1 "")
    Except.ok [0x21, reg, addr]
  | "LOAD" => do
    check_operand_count i 2
    let reg ← parse_register (i.operands.getD 0 "")
    let addr ← parse_value (i.operands.getD 1 "")
    Except.ok [0x20, reg, addr]
  | "STIDX" => do
    check_operand_count i 2
    let reg ← parse_register (i.operands.getD 0 "")
    let base ← parse_register (i.operands.getD 1 "")
    Except.ok [0x23, reg, base]
  | "LDIDX" => do
    check_operand_count i 2
    let reg ← parse_register (i.operands.getD 0 "")
    let base ← parse_register (i.operands.getD 1 "")
    Except.ok [0x22, reg, base]
  | "PUSH" => do
    check_operand_count i 1
    let reg ← parse_register (i.operands.getD 0 "")
    Except.ok [0x10, reg]
  | "POP" => do
    check_operand_count i 1
    let reg ← parse_register (i.operands.getD 0 "")
    Except.ok [0x11, reg]
  | "CALL" => do
    check_operand_count i 1
    let addr ← parse_value (i.operands.getD 0 "")
    Except.ok [0x12, addr]
  | "RET" => do
    check_operand_count i 0
    Except.ok [0x13]
  | "JMP" => do
    check_operand_count i 1
    let addr ← parse_value (i.operands.getD 0 "")
    Except.ok [0x40, addr]
  | "JEQ" => do
    check_operand_count i 1
    let addr ← parse_value (i.operands.getD 0 "")
    Except.ok [0x41, addr]
  | "JGT" => do
    check_operand_count i 1
    let addr ← parse_value (i.operands.getD 0 "")
    Except.ok [0x42, addr]
  | "JNE" => do
    check_operand_count i 1
    let addr ← parse_value (i.operands.getD 0 "")
    Except.ok [0x44, addr]
  | "CMP" => do
    check_operand_count i 2
    let reg1 ← parse_register (i.operands.getD 0 "")
    let reg2 ← parse_register (i.operands.getD 1 "")
    Except.ok [0x43, reg1, reg2]
  | "HALT" => do
    check_operand_count i 0
    Except.ok [0xFF]
  | "HLT" => do
    check_operand_count i 0
    Except.ok [0xFF]
  | _ => Except.error (AssemblerError.InvalidInstruction i.opcode)

/-- `Instruction`'s `FromStr` of `instruction.rs`: strip comments, split on
whitespace and commas, upper-case the mnemonic. -/
def Instruction.fromStr (s : String) : Except AssemblerError Instruction :=
  let t := trimChars s.data
  if t = [] ∨ t.head? = some ';' then
    Except.error (AssemblerError.SyntaxError "Empty or comment line")
  else
    let parts :=
      ((splitWhitespaceChars ((splitOnChar ';' t).headD [])).flatMap
        (splitOnChar ',')).map trimChars |>.filter (· ≠ [])
    match parts with
    | [] => Except.error (AssemblerError.SyntaxError "Empty instruction")
    | p0 :: rest =>
      Except.ok ⟨String.mk (p0.map Char.toUpper), rest.map String.mk⟩

/-! ### The monolithic two-pass assembler (`src/assembler.rs`) -/

/-- The label map (Rust `HashMap<String, usize>` with insert-overwrite). -/
def Labels : Type := String → Option Nat

/-- Empty label map. -/
def emptyLabels : Labels := fun _ => none

/-- `HashMap::insert` (overwriting). -/
def labelInsert (L : Labels) (k : String) (v : Nat) : Labels :=
  fun k' => if k' = k then some v else L k'

/-- The `Assembler` struct of `src/assembler.rs`. -/
structure Assembler where
  instructions : List Instruction
  labels : Labels
  current_address : Nat

/-- `Assembler::new`. -/
def Assembler.new : Assembler := ⟨[], emptyLabels, 0⟩

/-- `Assembler::parse_register` (same rule: `r` then a `u8` below 8). -/
def Assembler.parse_register (reg : String) : Except AssemblerError Nat :=
  match reg.data with
  | 'r' :: rest =>
    match parseDecU8 rest with
    | some n =>
      if n ≥ 8 then Except.error (AssemblerError.InvalidRegister reg)
      else Except.ok n
    | none => Except.error (AssemblerError.InvalidRegister reg)
  | _ => Except.error (AssemblerError.InvalidRegister reg)

/-- `Assembler::parse_value`. -/
def Assembler.parse_value (value : String) : Except AssemblerError Nat :=
  match value.data with
  | '0' :: 'x' :: rest =>
    match parseHexU8 rest with
    | some n => Except.ok n
    | none => Except.error (AssemblerError.InvalidValue value)
  | l =>
    match parseDecU8 l with
    | some n => Except.ok n
    | none => Except.error (AssemblerError.InvalidValue value)

/-- `Assembler::parse_jump_target`: label lookup first (address cast to `u8`),
then hex, then decimal; a non-numeric unknown token is an `UndefinedLabel`. -/
def Assembler.parse_jump_target (L : Labels) (target : String) : Except AssemblerError Nat :=
  match L target with
  | some addr => Except.ok (addr % 256)
  | none =>
    match target.data with
    | '0' :: 'x' :: rest =>
      match parseHexU8 rest with
      | some n => Except.ok n
      | none => Except.error (AssemblerError.InvalidValue target)
    | l =>
      match parseDecU8 l with
      | some n => Except.ok n
      | none => Except.error (AssemblerError.UndefinedLabel target)

/-- `Assembler::parse_memory_operand`: register if the token starts with `r`,
else a direct address value. -/
def Assembler.parse_memory_operand (operand : String) : Except AssemblerError Nat :=
  if operand.data = [] then Except.error (AssemblerError.InvalidValue "Empty operand")
  else if operand.data.head? = some 'r' then Assembler.parse_register operand
  else Assembler.parse_value operand

/-- `Assembler::validate_label`: non-empty, not starting with a digit,
alphanumeric/underscore only. -/
def Assembler.validate_label (label : String) : Except AssemblerError Unit :=
  match label.data with
  | [] => Except.error (AssemblerError.InvalidLabel label)
  | ch :: _ =>
    if ch.isDigit then Except.error (AssemblerError.InvalidLabel label)
    else if label.data.all (fun c2 => c2.isAlphanum || c2 == '_') then Except.ok ()
    else Except.error (AssemblerError.InvalidLabel label)

/-- `Assembler::calculate_instruction_size`. Note that LOAD/STORE/LDIDX/STIDX
(and JNE, HLT) fall through to the default arm and are sized 1. -/
def Assembler.calculate_instruction_size (inst : Instruction) : Nat :=
  match inst.opcode with
  | "MOV" => 3
  | "ADD" | "SUB" | "MUL" | "DIV" | "CMP" => 3
  | "INC" | "DEC" | "OUT" | "PUSH" | "POP" => 2
  | "JMP" | "JEQ" | "JGT" => 2
  | "CALL" => 2
  | "RET" | "HALT" => 1
  | _ => 1

/-- `Assembler::validate_operands`. -/
def Assembler.validate_operands (inst : Instruction) : Except AssemblerError Unit := do
  let expected ←
    match inst.opcode with
    | "MOV" | "ADD" | "SUB" | "MUL" | "DIV" | "CMP" => Except.ok 2
    | "LOAD" | "STORE" => Except.ok 2
    | "INC" | "DEC" | "OUT" | "PUSH" | "POP" | "LDIDX" | "STIDX"
    | "JMP" | "JEQ" | "JGT" => Except.ok 1
    | "HALT" | "RET" => Except.ok 0
    | _ => Except.error (AssemblerError.InvalidInstruction inst.opcode)
  if inst.operands.length = expected then Except.ok ()
  else
    Except.error
      (AssemblerError.InvalidNumberOfOperands inst.opcode expected inst.operands.length)

/-- `Assembler::encode_two_reg`. -/
def Assembler.encode_two_reg (opc : Nat) (operands : List String) :
    Except AssemblerError (List Nat) := do
  let a ← Assembler.parse_register (operands.getD 0 "")
  let b ← Assembler.parse_register (operands.getD 1 "")
  Except.ok [opc, a, b]

/-- `Assembler::encode_single_reg`. -/
def Assembler.encode_single_reg (opc : Nat) (operands : List String) :
    Except AssemblerError (List Nat) := do
  let a ← Assembler.parse_register (operands.getD 0 "")
  Except.ok [opc, a]

/-- `Assembler::encode_jump`. -/
def Assembler.encode_jump (L : Labels) (opc : Nat) (operands : List String) :
    Except AssemblerError (List Nat) := do
  let a ← Assembler.parse_jump_target L (operands.getD 0 "")
  Except.ok [opc, a]

/-- `Assembler::instruction_to_bytes` (reads only the label map from `self`). -/
def Assembler.instruction_to_bytes (L : Labels) (inst : Instruction) :
    Except AssemblerError (List Nat) := do
  Assembler.validate_operands inst
  match inst.opcode with
  | "MOV" => do
    let r ← Assembler.parse_register (inst.operands.getD 0 "")
    let v ← Assembler.parse_value (inst.operands.getD 1 "")
    Except.ok [0x04, r, v]
  | "ADD" => Assembler.encode_two_reg 0x30 inst.operands
  | "SUB" => Assembler.encode_two_reg 0x31 inst.operands
  | "MUL" => Assembler.encode_two_reg 0x32 inst.operands
  | "DIV" => Assembler.encode_two_reg 0x33 inst.operands
  | "INC" => Assembler.encode_single_reg 0x01 inst.operands
  | "DEC" => Assembler.encode_single_reg 0x02 inst.operands
  | "OUT" => Assembler.encode_single_reg 0x03 inst.operands
  | "PUSH" => Assembler.encode_single_reg 0x10 inst.operands
  | "POP" => Assembler.encode_single_reg 0x11 inst.operands
  | "LOAD" => do
    let r ← Assembler.parse_register (inst.operands.getD 0 "")
    let a ← Assembler.parse_memory_operand (inst.operands.getD 1 "")
    Except.ok [0x20, r, a]
  | "STORE" => do
    let r ← Assembler.parse_register (inst.operands.getD 0 "")
    let a ← Assembler.parse_memory_operand (inst.operands.getD 1 "")
    Except.ok [0x21, r, a]
  | "LDIDX" => Assembler.encode_single_reg 0x22 inst.operands
  | "STIDX" => Assembler.encode_single_reg 0x23 inst.operands
  | "JMP" => Assembler.encode_jump L 0x40 inst.operands
  | "JEQ" => Assembler.encode_jump L 0x41 inst.operands
  | "JGT" => Assembler.encode_jump L 0x42 inst.operands
  | "CMP" => Assembler.encode_two_reg 0x43 inst.operands
  | "CALL" => Assembler.encode_jump L 0x12 inst.operands
  | "RET" => Except.ok [0x13]
  | "HALT" => Except.ok [0xFF]
  | _ => Except.error (AssemblerError.InvalidInstruction inst.opcode)

/-- The body of `Assembler::first_pass` for one source line:
skip blank/comment lines, record (and overwrite) labels, or parse an
instruction and advance `current_address` by its calculated size. -/
def Assembler.processLine (a : Assembler) (rawLine : List Char) :
    Except AssemblerError Assembler :=
  let line := trimChars rawLine
  if line = [] ∨ line.head? = some ';' then Except.ok a
  else if line.getLast? = some ':' then
    let label := String.mk (trimChars line.dropLast)
    match Assembler.validate_label label with
    | Except.error e => Except.error e
    | Except.ok _ =>
      Except.ok { a with labels := labelInsert a.labels label a.current_address }
  else
    let parts := splitWhitespaceChars ((splitOnChar ';' line).headD [])
    match parts with
    | [] => Except.ok a
    | p0 :: rest =>
      let inst : Instruction :=
        ⟨String.mk (p0.map Char.toUpper),
          rest.map (fun t => String.mk (t.filter (fun ch => ch ≠ ',')))⟩
      Except.ok
        { a with
          instructions := a.instructions ++ [inst]
          current_address := a.current_address + Assembler.calculate_instruction_size inst }

/-- `Assembler::first_pass`, line by line. -/
def Assembler.first_pass_lines : Assembler → List (List Char) → Except AssemblerError Assembler
  | a, [] => Except.ok a
  | a, l :: ls =>
    match a.processLine l with
    | Except.error e => Except.error e
    | Except.ok a2 => Assembler.first_pass_lines a2 ls

/-- `Assembler::first_pass`: reset `current_address`, then scan the lines. -/
def Assembler.first_pass (a : Assembler) (code : String) : Except AssemblerError Assembler :=
  Assembler.first_pass_lines { a with current_address := 0 } (splitOnChar '\n' code.data)

/-- `Assembler::second_pass` over an explicit instruction list. -/
def Assembler.emitAll (L : Labels) : List Instruction → Except AssemblerError (List Nat)
  | [] => Except.ok []
  | i :: rest => do
    let b ← Assembler.instruction_to_bytes L i
    let more ← Assembler.emitAll L rest
    Except.ok (b ++ more)

/-- `Assembler::second_pass`. -/
def Assembler.second_pass (a : Assembler) : Except AssemblerError (List Nat) :=
  Assembler.emitAll a.labels a.instructions

/-- `Assembler::assemble`: first pass then second pass; the success value also
carries the mutated `self` (Rust mutates the receiver in place). -/
def Assembler.assemble (a : Assembler) (code : String) :
    Except AssemblerError (List Nat × Assembler) := do
  let a1 ← a.first_pass code
  let b ← a1.second_pass
  Except.ok (b, a1)

/-- The byte output of `Assembler::assemble` (dropping the mutated state). -/
def Assembler.assembleBytes (a : Assembler) (code : String) :
    Except AssemblerError (List Nat) :=
  (a.assemble code).map Prod.fst

/-! ### The modular assembler driver, modelled from the spec

The live assembler of the crate is `src/assembler/mod.rs`, which delegates to a
`Parser` in `src/assembler/parser.rs`; that file is not present under `src/`.
Only its driver logic is modelled from the spec below — per-instruction byte
emission still uses the source-faithful `Instruction.encode` and line parsing
uses the source-faithful `Instruction.fromStr` from `src/assembler/instruction.rs`.
-/

/-- Modelled from the spec: instruction sizes of the §4.1 encoding table
(1 opcode byte plus 0, 1 or 2 operand bytes); used by the missing
`parser.rs` first pass ("advance `current_address` by the known size of that
opcode (1, 2, or 3)"). -/
def specSize (i : Instruction) : Nat :=
  match i.opcode with
  | "MOV" | "ADD" | "SUB" | "MUL" | "DIV" | "CMP"
  | "LOAD" | "STORE" | "LDIDX" | "STIDX" => 3
  | "INC" | "DEC" | "OUT" | "PUSH" | "POP"
  | "JMP" | "JEQ" | "JGT" | "JNE" | "CALL" => 2
  | _ => 1

/-- Modelled from the spec: label wellformedness of §3 (first character a
letter or underscore, remaining characters alphanumeric or underscore). -/
def specValidLabel (label : String) : Bool :=
  match label.data with
  | [] => false
  | ch :: rest => (ch.isAlpha || ch == '_') && rest.all (fun c2 => c2.isAlphanum || c2 == '_')

/-- First-pass state of the modelled driver. -/
structure PassState where
  labels : Labels
  addr : Nat
  insts : List Instruction

/-- Modelled from the spec: pass 1 of §4.3 for the missing `parser.rs` — skip
blank/comment lines, record labels (duplicates are an `InvalidLabel` error),
parse instruction lines via the source `Instruction.fromStr` and advance by
the table size. -/
def specPass1 : PassState → List (List Char) → Except AssemblerError PassState
  | st, [] => Except.ok st
  | st, l :: ls =>
    let line := trimChars l
    if line = [] ∨ line.head? = some ';' then specPass1 st ls
    else if line.getLast? = some ':' then
      let name := String.mk (trimChars line.dropLast)
      if specValidLabel name then
        if (st.labels name).isSome then Except.error (AssemblerError.InvalidLabel name)
        else specPass1 { st with labels := labelInsert st.labels name st.addr } ls
      else Except.error (AssemblerError.InvalidLabel name)
    else
      match Instruction.fromStr (String.mk line) with
      | Except.error e => Except.error e
      | Except.ok i =>
        specPass1 { st with addr := st.addr + specSize i, insts := st.insts ++ [i] } ls

/-- Mnemonics whose single operand is a jump/call target. -/
def isJumpOp (o : String) : Bool :=
  o == "JMP" || o == "JEQ" || o == "JGT" || o == "JNE" || o == "CALL"

/-- Modelled from the spec: target resolution of §4.3 pass 2 — a known label is
substituted by its address, a numeric literal is kept, anything else is an
`UndefinedLabel` error. -/
def resolveInst (L : Labels) (i : Instruction) : Except AssemblerError Instruction :=
  if isJumpOp i.opcode then
    match i.operands with
    | [t] =>
      match L t with
      | some adr => Except.ok ⟨i.opcode, [String.mk (natChars adr)]⟩
      | none =>
        match parse_value t with
        | Except.ok _ => Except.ok i
        | Except.error _ => Except.error (AssemblerError.UndefinedLabel t)
    | _ => Except.ok i
  else Except.ok i

/-- Modelled from the spec: pass 2 — resolve targets, then emit via the source
`Instruction.encode`. -/
def specPass2 (L : Labels) : List Instruction → Except AssemblerError (List Nat)
  | [] => Except.ok []
  | i :: rest => do
    let ri ← resolveInst L i
    let b ← ri.encode
    let more ← specPass2 L rest
    Except.ok (b ++ more)

/-- Modelled from the spec: `Assembler::assemble` of the modular assembler
(`mod.rs` delegating to the missing `parser.rs`). -/
def assembleMod (code : String) : Except AssemblerError (List Nat) := do
  let st ← specPass1 ⟨emptyLabels, 0, []⟩ (splitOnChar '\n' code.data)
  specPass2 st.labels st.insts

/-! ### Decidability and arithmetic helpers -/

/-- Decidable equality on `Except`, for evaluating assembler results. -/
instance exceptDecEq {e a : Type} [DecidableEq e] [DecidableEq a] : DecidableEq (Except e a) :=
  fun x y =>
    match x, y with
    | Except.ok v, Except.ok w =>
      if h : v = w then Decidable.isTrue (by rw [h])
      else Decidable.isFalse (fun hh => h (Except.ok.inj hh))
    | Except.error v, Except.error w =>
      if h : v = w then Decidable.isTrue (by rw [h])
      else Decidable.isFalse (fun hh => h (Except.error.inj hh))
    | Except.ok _, Except.error _ => Decidable.isFalse (fun hh => Except.noConfusion hh)
    | Except.error _, Except.ok _ => Decidable.isFalse (fun hh => Except.noConfusion hh)

/-! ### Stack-pointer preservation (used for the stack invariant) -/

/-- Any non-panicking outcome of `execute` keeps `sp` within memory:
`Push` only decrements a positive `sp`, `Pop` only increments `sp` below
`memory.len()`, and no arm grows or shrinks memory. -/
theorem execute_sp_le (c : CPU) (o : Opcode) (c2 : CPU) (hinv : c.sp ≤ c.memory.length)
    (h : execute c o = StepR.ok c2 ∨ ∃ e, execute c o = StepR.err e c2) :
    c2.sp ≤ c2.memory.length := by
  cases o <;> rcases h with h | ⟨e, h⟩ <;> simp only [execute] at h <;>
    (repeat' split at h) <;>
    (try obtain ⟨h1, h⟩ := h) <;> (try subst h) <;> (try simp_all) <;> (try omega)

/-- The invariant `sp ≤ memory.len()` is preserved by `run`, whatever state the
loop stops in (normal exit, fault, or fuel exhaustion). -/
theorem run_sp_le (fuel : Nat) :
    ∀ (c c2 : CPU), c.sp ≤ c.memory.length → runStateOf (run fuel c) = some c2 →
      c2.sp ≤ c2.memory.length := by
  induction fuel with
  | zero =>
    intro c c2 hinv h
    simp only [run, runStateOf, Option.some.injEq] at h
    subst h; exact hinv
  | succ n ih =>
    intro c c2 hinv h
    simp only [run] at h
    split at h
    · split at h
      · simp [runStateOf] at h
      · rename_i op_p heq
        split at h
        · rename_i c3 hex
          refine ih _ _ ?_ h
          refine execute_sp_le _ _ _ ?_ (Or.inl hex)
          exact hinv
        · rename_i e c3 hex
          simp only [runStateOf, Option.some.injEq] at h
          subst h
          refine execute_sp_le _ _ _ ?_ (Or.inr ⟨e, hex⟩)
          exact hinv
        · simp [runStateOf] at h
    · simp only [runStateOf, Option.some.injEq] at h
      subst h; exact hinv

/-- `run` only returns `Ok` when the final `pc` has reached the end of memory
(the loop condition is the sole normal exit). -/
theorem run_ok_pc (fuel : Nat) :
    ∀ (c c2 : CPU), run fuel c = RunR.ok c2 → c2.memory.length ≤ c2.pc := by
  induction fuel with
  | zero => intro c c2 h; simp [run] at h
  | succ n ih =>
    intro c c2 h
    simp only [run] at h
    split at h
    · split at h
      · simp at h
      · split at h
        · exact ih _ _ h
        · simp at h
        · simp at h
    · rename_i hpc
      injection h with h2
      subst h2
      omega

/-! ### Label-map algebra for the two-pass assembler -/

/-- Left-biased union of label maps. -/
def overlay (f g : Labels) : Labels := fun k =>
  match f k with
  | some v => some v
  | none => g k

/-- `overlay` with an empty left map is the identity. -/
theorem overlay_empty_left (L : Labels) : overlay emptyLabels L = L :=
  funext fun _ => rfl

/-- `overlay` is idempotent. -/
theorem overlay_self (L : Labels) : overlay L L = L := by
  funext k
  cases h : L k <;> simp [overlay, h]

/-- `overlay` is associative. -/
theorem overlay_assoc (f g h : Labels) : overlay f (overlay g h) = overlay (overlay f g) h := by
  funext k
  cases hf : f k <;> simp [overlay, hf]

/-- Inserting into a map is overlaying a singleton insertion. -/
theorem labelInsert_overlay (L : Labels) (k : String) (v : Nat) :
    labelInsert L k v = overlay (labelInsert emptyLabels k v) L := by
  funext k2
  by_cases h : k2 = k <;> simp [labelInsert, overlay, emptyLabels, h]

/-- Replaying a first pass on top of existing assembler state: the existing
instructions are kept in front and the existing labels sit under the new ones. -/
def liftA (I : List Instruction) (L : Labels) (a0 : Assembler) : Assembler :=
  ⟨I ++ a0.instructions, overlay a0.labels L, a0.current_address⟩

/-- One first-pass line processed from accumulated state equals the same line
processed from a fresh state, shifted by `liftA`. -/
theorem processLine_shift (l : List Char) (I : List Instruction) (L : Labels) (n : Nat) :
    Assembler.processLine ⟨I, L, n⟩ l =
      (Assembler.processLine ⟨[], emptyLabels, n⟩ l).map (liftA I L) := by
  unfold Assembler.processLine
  by_cases h1 : (trimChars l = [] ∨ (trimChars l).head? = some ';')
  · simp [h1, Except.map, liftA, overlay_empty_left]
  · simp only [h1, if_false]
    by_cases h2 : (trimChars l).getLast? = some ':'
    · simp only [h2, if_true]
      cases hv : Assembler.validate_label (String.mk (trimChars (trimChars l).dropLast)) with
      | error e => simp [hv, Except.map]
      | ok u =>
        simp [hv, Except.map, liftA]
        exact labelInsert_overlay L _ n
    · simp only [h2, if_false]
      cases hp : splitWhitespaceChars ((splitOnChar ';' (trimChars l)).headD []) with
      | nil => simp [hp, Except.map, liftA, overlay_empty_left]
      | cons p0 rest => simp [hp, Except.map, liftA, overlay_empty_left]

/-- The whole first pass from accumulated state is the fresh first pass shifted
by `liftA` (label inserts and instruction pushes commute with the shift). -/
theorem first_pass_lines_shift (ls : List (List Char)) :
    ∀ (I : List Instruction) (L : Labels) (n : Nat),
      Assembler.first_pass_lines ⟨I, L, n⟩ ls =
        (Assembler.first_pass_lines ⟨[], emptyLabels, n⟩ ls).map (liftA I L) := by
  induction ls with
  | nil => intro I L n; simp [Assembler.first_pass_lines, Except.map, liftA, overlay_empty_left]
  | cons l ls ih =>
    intro I L n
    simp only [Assembler.first_pass_lines]
    rw [processLine_shift]
    cases hp : Assembler.processLine ⟨[], emptyLabels, n⟩ l with
    | error e => simp [Except.map]
    | ok a0 =>
      simp only [Except.map, liftA]
      rw [ih (I ++ a0.instructions) (overlay a0.labels L) a0.current_address]
      rw [show (Assembler.first_pass_lines a0 ls) =
            Assembler.first_pass_lines ⟨a0.instructions, a0.labels, a0.current_address⟩ ls from rfl,
         ih a0.instructions a0.labels a0.current_address]
      cases hf : Assembler.first_pass_lines ⟨[], emptyLabels, a0.current_address⟩ ls with
      | error e => simp [Except.map]
      | ok b0 => simp [Except.map, liftA, List.append_assoc, overlay_assoc]

/-- Emission distributes over instruction-list append. -/
theorem emitAll_append (L : Labels) (xs ys : List Instruction) :
    Assembler.emitAll L (xs ++ ys) =
      (Assembler.emitAll L xs).bind
        (fun b => (Assembler.emitAll L ys).map (fun b2 => b ++ b2)) := by
  induction xs with
  | nil =>
    simp only [List.nil_append, Assembler.emitAll]
    cases hy : Assembler.emitAll L ys with
    | error e => simp [Except.bind, Except.map]
    | ok b2 => simp [Except.bind, Except.map]
  | cons i xs ih =>
    simp only [List.cons_append, Assembler.emitAll]
    cases hi : Assembler.instruction_to_bytes L i with
    | error e => simp [Except.bind, bind]
    | ok b1 =>
      simp only [Except.bind, bind, List.append_eq]
      rw [ih]
      cases hx : Assembler.emitAll L xs with
      | error e => simp [Except.bind, bind]
      | ok bx =>
        cases hy : Assembler.emitAll L ys with
        | error e => simp [Except.bind, bind, Except.map]
        | ok b2 => simp [Except.bind, bind, Except.map, List.append_assoc]

/-! ### Claims -/

/-- C2: the claim says pass 1 advances `current_address` by exactly the number
of bytes pass 2 emits, for every accepted instruction line. The code
contradicts it (and the stated purpose of `calculate_instruction_size`):
LOAD/STORE are sized 1 but emit 3 bytes, LDIDX/STIDX are sized 1 but emit 2,
so a label after a LOAD records offset 1 while the next instruction really
starts at offset 3 (the emitted `JMP lab` byte targets 1, not 3). -/
theorem c2_load_store_size_mismatch :
    Assembler.calculate_instruction_size ⟨"LOAD", ["r0", "0x50"]⟩ = 1 ∧
    Assembler.instruction_to_bytes emptyLabels ⟨"LOAD", ["r0", "0x50"]⟩ =
      Except.ok [0x20, 0, 0x50] ∧
    Assembler.calculate_instruction_size ⟨"STORE", ["r0", "0x50"]⟩ = 1 ∧
    Assembler.instruction_to_bytes emptyLabels ⟨"STORE", ["r0", "0x50"]⟩ =
      Except.ok [0x21, 0, 0x50] ∧
    Assembler.calculate_instruction_size ⟨"LDIDX", ["r0"]⟩ = 1 ∧
    Assembler.instruction_to_bytes emptyLabels ⟨"LDIDX", ["r0"]⟩ = Except.ok [0x22, 0] ∧
    Assembler.calculate_instruction_size ⟨"STIDX", ["r0"]⟩ = 1 ∧
    Assembler.instruction_to_bytes emptyLabels ⟨"STIDX", ["r0"]⟩ = Except.ok [0x23, 0] ∧
    Assembler.new.assembleBytes "LOAD r0, 0x50\nlab:\nJMP lab" =
      Except.ok [0x20, 0, 0x50, 0x40, 1] := by
  set_option maxRecDepth 10000 in decide

/-- C3 counterexample: a freshly created CPU with the default configuration has
`sp = 192 = memory_size - stack_size`, not `sp = memory_size = 256`. -/
theorem c3_counterexample :
    (CPU.new VMConfig.default).sp = 192 ∧
    ¬ (CPU.new VMConfig.default).sp = VMConfig.default.memory_size := by
  set_option maxRecDepth 10000 in decide

/-- C3 (amended): `CPU::new` puts `sp` at `memory_size - stack_size` (the stack
grows downward from there towards address 0); throughout execution
`sp ≤ memory_size` holds in every reachable state, and a `PUSH` with `sp = 0`
raises `StackOverflow` without writing (the state is returned unchanged). -/
theorem c3_amended_stack_bounds (cfg : VMConfig) (c cp c2 : CPU) (r fuel : Nat)
    (hcfg : cfg.stack_size ≤ cfg.memory_size)
    (hsp0 : cp.sp = 0)
    (hinv : c.sp ≤ c.memory.length)
    (hrun : runStateOf (run fuel c) = some c2) :
    (CPU.new cfg).sp = cfg.memory_size - cfg.stack_size ∧
    (CPU.new cfg).sp ≤ cfg.memory_size ∧
    execute cp (Opcode.Push r) = StepR.err VMError.StackOverflow cp ∧
    c2.sp ≤ c2.memory.length := by
  refine ⟨rfl, ?_, ?_, run_sp_le fuel c c2 hinv hrun⟩
  · show cfg.memory_size - cfg.stack_size ≤ cfg.memory_size
    omega
  · simp [execute, hsp0]

/-- Concrete instance of the stack-bound facts: default configuration, a CPU
with `sp = 0`, and one `run` step on a fresh default CPU. -/
theorem c3_amended_stack_bounds_witness :
    (CPU.new VMConfig.default).sp = VMConfig.default.memory_size - VMConfig.default.stack_size ∧
    (CPU.new VMConfig.default).sp ≤ VMConfig.default.memory_size ∧
    execute { CPU.new VMConfig.default with sp := 0 } (Opcode.Push 0) =
      StepR.err VMError.StackOverflow { CPU.new VMConfig.default with sp := 0 } ∧
    ({ CPU.new VMConfig.default with pc := 1 } : CPU).sp ≤
      ({ CPU.new VMConfig.default with pc := 1 } : CPU).memory.length :=
  c3_amended_stack_bounds VMConfig.default (CPU.new VMConfig.default)
    { CPU.new VMConfig.default with sp := 0 } { CPU.new VMConfig.default with pc := 1 } 0 1
    (by decide) (by decide)
    (by set_option maxRecDepth 10000 in decide)
    (by set_option maxRecDepth 10000 in decide)

/-- C4: the claim (and the spec) say that operand bytes lying past the end of
memory are treated as if execution had halted, with no fault. In the code the
operand read is an unchecked `Vec` index, which panics: a 1-byte memory holding
opcode `0x01` (INC, which fetches a register operand at address 1) panics, and
so does `0x40` (JMP, whose address operand is read during execute). -/
theorem c4_operand_fetch_panics :
    ((CPU.new ⟨1, false, 0, 8, 0, 0⟩).load_program [0x01]).map (run 10) = some RunR.panic ∧
    ((CPU.new ⟨1, false, 0, 8, 0, 0⟩).load_program [0x40]).map (run 10) = some RunR.panic := by
  set_option maxRecDepth 10000 in decide

/-- Result classifier used to state that a run outcome is not an
`InvalidRegister` error. -/
def isInvalidRegisterErr : Option RunR → Bool
  | some (RunR.err (VMError.InvalidRegister _) _) => true
  | _ => false

/-- C5 counterexample: executing the hand-crafted bytes `04 09 05`
(`MOV` into register 9) on the default 8-register CPU does not return
`InvalidRegister(9)` — the unchecked `self.registers[9]` write panics. -/
theorem c5_counterexample :
    ((CPU.new VMConfig.default).load_program [0x04, 9, 5]).map (run 10) = some RunR.panic ∧
    isInvalidRegisterErr (((CPU.new VMConfig.default).load_program [0x04, 9, 5]).map (run 10)) =
      false := by
  set_option maxRecDepth 10000 in decide

/-- C5 (amended): only INC and DEC check the register index, returning
`InvalidRegister(i)` with the CPU unchanged when `i ≥ num_registers`; the other
register-referencing instructions index register storage unchecked and panic
when the index is out of range (shown for MOV, the counterexample's
instruction). -/
theorem c5_amended_register_checks (c : CPU) (r d s : Nat)
    (hr : c.config.num_registers ≤ r) (hd : c.registers.length ≤ d) :
    execute c (Opcode.Inc r) = StepR.err (VMError.InvalidRegister r) c ∧
    execute c (Opcode.Dec r) = StepR.err (VMError.InvalidRegister r) c ∧
    execute c (Opcode.Mov d s) = StepR.panic := by
  refine ⟨?_, ?_, ?_⟩
  · simp [execute, hr]
  · simp [execute, hr]
  · simp [execute]
    omega

/-- Concrete instance of the register-check facts on the default CPU:
register 9 for INC/DEC, register 8 as a MOV destination. -/
theorem c5_amended_register_checks_witness :
    execute (CPU.new VMConfig.default) (Opcode.Inc 9) =
      StepR.err (VMError.InvalidRegister 9) (CPU.new VMConfig.default) ∧
    execute (CPU.new VMConfig.default) (Opcode.Dec 9) =
      StepR.err (VMError.InvalidRegister 9) (CPU.new VMConfig.default) ∧
    execute (CPU.new VMConfig.default) (Opcode.Mov 8 0) = StepR.panic :=
  c5_amended_register_checks (CPU.new VMConfig.default) 9 8 0 (by decide) (by decide)

/-- C6: DIV with a zero divisor faults with `DivisionByZero` before any write:
`execute` returns the error with the CPU unchanged (so register D keeps its
value), and `run` aborts at that instruction; for registers holding any 8-bit
values the arithmetic instructions compute the wrapping result modulo 256
(division, which cannot overflow, is the plain quotient). -/
theorem c6_div_zero_and_wrapping (c : CPU) (d s vd vs : Nat)
    (hd : c.registers[d]? = some vd) (hs : c.registers[s]? = some vs) :
    (vs = 0 → execute c (Opcode.Div d s) = StepR.err VMError.DivisionByZero c) ∧
    (vs = 0 → ∀ fuel, c.pc < c.memory.length →
      c.memory[c.pc]? = some 0x33 → c.memory[c.pc + 1]? = some d →
      c.memory[c.pc + 2]? = some s →
      run (fuel + 1) c = RunR.err VMError.DivisionByZero { c with pc := c.pc + 3 }) ∧
    execute c (Opcode.Add d s) =
      StepR.ok { c with registers := c.registers.set d ((((vd : Int) + vs) % 256).toNat) } ∧
    execute c (Opcode.Sub d s) =
      StepR.ok { c with registers := c.registers.set d ((((vd : Int) - vs) % 256).toNat) } ∧
    execute c (Opcode.Mul d s) =
      StepR.ok { c with registers := c.registers.set d ((((vd : Int) * vs) % 256).toNat) } ∧
    (vs ≠ 0 → execute c (Opcode.Div d s) =
      StepR.ok { c with registers := c.registers.set d (vd / vs) }) := by
  refine ⟨?_, ?_, ?_, ?_, ?_, ?_⟩
  · intro h0
    subst h0
    simp [execute, readRegO, hs]
  · intro h0 fuel hp h1 h2 h3
    subst h0
    simp [run, hp, fetch, readMemO, h1, h2, h3, execute, readRegO, hs, Nat.not_le.mpr hp]
  · have e1 : ((((vd : Int) + vs) % 256).toNat) = (vd + vs) % 256 := by omega
    rw [e1]
    simp [execute, readRegO, hd, hs]
  · have e2 : ((((vd : Int) - vs) % 256).toNat) = (vd + (256 - vs % 256)) % 256 := by omega
    rw [e2]
    simp [execute, readRegO, hd, hs]
  · have e4 : ((vd : Int) * vs) = ((vd * vs : Nat) : Int) := by push_cast; ring
    have e3 : ((((vd : Int) * vs) % 256).toNat) = (vd * vs) % 256 := by rw [e4]; omega
    rw [e3]
    simp [execute, readRegO, hd, hs]
  · intro hnz
    simp [execute, readRegO, hd, hs, hnz]

/-- Concrete instance: registers `[7, 0]`, program `33 00 01 FF` (DIV r0, r1
with r1 = 0): the step faults, `run` aborts with `DivisionByZero` at pc 3, and
the wrapping equations hold at 7 and 0. -/
theorem c6_div_zero_and_wrapping_witness :
    (execute ⟨[7, 0], 0, [0x33, 0, 1, 0xFF], 4, 0, VMConfig.default, []⟩ (Opcode.Div 0 1) =
      StepR.err VMError.DivisionByZero ⟨[7, 0], 0, [0x33, 0, 1, 0xFF], 4, 0, VMConfig.default, []⟩) ∧
    (run 1 ⟨[7, 0], 0, [0x33, 0, 1, 0xFF], 4, 0, VMConfig.default, []⟩ =
      RunR.err VMError.DivisionByZero ⟨[7, 0], 3, [0x33, 0, 1, 0xFF], 4, 0, VMConfig.default, []⟩) ∧
    execute ⟨[7, 0], 0, [0x33, 0, 1, 0xFF], 4, 0, VMConfig.default, []⟩ (Opcode.Add 0 1) =
      StepR.ok ⟨[(((7 : Int) + 0) % 256).toNat, 0], 0, [0x33, 0, 1, 0xFF], 4, 0,
        VMConfig.default, []⟩ := by
  have h := c6_div_zero_and_wrapping
    ⟨[7, 0], 0, [0x33, 0, 1, 0xFF], 4, 0, VMConfig.default, []⟩ 0 1 7 0
    (by decide) (by decide)
  exact ⟨h.1 (by decide), h.2.1 (by decide) 0 (by decide) (by decide) (by decide) (by decide),
    h.2.2.1⟩

/-- C1: for register indices `d, s < 8`, the MOV line `MOV rD, rS` assembles
(via the modular assembler, whose per-instruction emission is the source
`Instruction.encode`) to the three bytes `04 D S` — the source register INDEX
is placed as the literal operand byte — and executing `Mov d s` writes the
byte `s` itself (not the contents of register `s`) into register `d`. -/
theorem c1_mov_register_token_is_literal (d s : Nat) (hd : d < 8) (hs : s < 8) :
    Instruction.encode
        ⟨"MOV", [String.mk ('r' :: natChars d), String.mk ('r' :: natChars s)]⟩ =
      Except.ok [0x04, d, s] ∧
    assembleMod
        (String.mk (['M', 'O', 'V', ' ', 'r'] ++ natChars d ++ [',', ' ', 'r'] ++ natChars s)) =
      Except.ok [0x04, d, s] ∧
    (∀ c : CPU, d < c.registers.length →
      execute c (Opcode.Mov d s) = StepR.ok { c with registers := c.registers.set d s }) := by
  refine ⟨?_, ?_, ?_⟩
  · have hall : ∀ d2 : Nat, d2 < 8 → ∀ s2 : Nat, s2 < 8 →
        Instruction.encode
            ⟨"MOV", [String.mk ('r' :: natChars d2), String.mk ('r' :: natChars s2)]⟩ =
          Except.ok [0x04, d2, s2] := by
      set_option maxRecDepth 40000 in decide
    exact hall d hd s hs
  · have hall : ∀ d2 : Nat, d2 < 8 → ∀ s2 : Nat, s2 < 8 →
        assembleMod
            (String.mk
              (['M', 'O', 'V', ' ', 'r'] ++ natChars d2 ++ [',', ' ', 'r'] ++ natChars s2)) =
          Except.ok [0x04, d2, s2] := by
      set_option maxRecDepth 40000 in
      set_option maxHeartbeats 1000000 in decide
    exact hall d hd s hs
  · intro c hc
    simp [execute, hc]

/-- Concrete instance at `MOV r0, r3` on a fresh default CPU: the emitted bytes
are `04 00 03` and execution writes the byte 3 into register 0. -/
theorem c1_mov_register_token_is_literal_witness :
    Instruction.encode ⟨"MOV", ["r0", "r3"]⟩ = Except.ok [0x04, 0, 3] ∧
    assembleMod "MOV r0, r3" = Except.ok [0x04, 0, 3] ∧
    execute (CPU.new VMConfig.default) (Opcode.Mov 0 3) =
      StepR.ok { CPU.new VMConfig.default with
        registers := (CPU.new VMConfig.default).registers.set 0 3 } := by
  have h := c1_mov_register_token_is_literal 0 3 (by decide) (by decide)
  exact ⟨h.1, h.2.1, h.2.2 (CPU.new VMConfig.default) (by decide)⟩

/-- C7: a JNE line assembles (modular assembler; emission is the source
`Instruction.encode`) to opcode byte `0x44` followed by the resolved address
byte — shown for every numeric target below 256 and for a forward label
target — the fetched byte `0x44` decodes to `Jne`, and executing it sets `pc`
to the address byte when the Zero flag (bit 0) is clear and falls through to
the next instruction when it is set. -/
theorem c7_jne_assembles_and_branches (a : Nat) (ha : a < 256) :
    assembleMod (String.mk (['J', 'N', 'E', ' '] ++ natChars a)) = Except.ok [0x44, a] ∧
    assembleMod "JNE fin\nfin:" = Except.ok [0x44, 2] ∧
    (∀ c : CPU, c.pc < c.memory.length → c.memory[c.pc]? = some 0x44 →
      fetch c = some (Opcode.Jne, c.pc + 1)) ∧
    (∀ (c : CPU) (t : Nat), c.memory[c.pc]? = some t →
      (c.flags &&& 1 = 0 → execute c Opcode.Jne = StepR.ok { c with pc := t }) ∧
      (c.flags &&& 1 ≠ 0 → execute c Opcode.Jne = StepR.ok { c with pc := c.pc + 1 })) := by
  refine ⟨?_, ?_, ?_, ?_⟩
  · have hall : ∀ a2 : Nat, a2 < 256 →
        assembleMod (String.mk (['J', 'N', 'E', ' '] ++ natChars a2)) =
          Except.ok [0x44, a2] := by
      set_option maxRecDepth 100000 in
      set_option maxHeartbeats 4000000 in decide
    exact hall a ha
  · set_option maxRecDepth 10000 in decide
  · intro c hp hb
    simp [fetch, readMemO, hb]
    omega
  · intro c t hm
    refine ⟨?_, ?_⟩
    · intro hf
      simp [execute, readMemO, hm, hf]
    · intro hf
      have hf2 : c.flags % 2 ≠ 0 := by rwa [Nat.and_one_is_mod] at hf
      simp [execute, readMemO, hm, hf2]

/-- Concrete instance: `JNE 5` emits `44 05`; fetching byte `0x44` at pc 0 of
the two-byte program `44 07` decodes to `Jne`, which jumps to 7 with flags 0
and falls through to 2 with the Zero flag set. -/
theorem c7_jne_assembles_and_branches_witness :
    assembleMod "JNE 5" = Except.ok [0x44, 5] ∧
    fetch ⟨[0, 0], 0, [0x44, 7], 2, 0, VMConfig.default, []⟩ = some (Opcode.Jne, 1) ∧
    execute ⟨[0, 0], 1, [0x44, 7], 2, 0, VMConfig.default, []⟩ Opcode.Jne =
      StepR.ok ⟨[0, 0], 7, [0x44, 7], 2, 0, VMConfig.default, []⟩ ∧
    execute ⟨[0, 0], 1, [0x44, 7], 2, 1, VMConfig.default, []⟩ Opcode.Jne =
      StepR.ok ⟨[0, 0], 2, [0x44, 7], 2, 1, VMConfig.default, []⟩ := by
  have h := c7_jne_assembles_and_branches 5 (by decide)
  refine ⟨h.1, h.2.2.1 ⟨[0, 0], 0, [0x44, 7], 2, 0, VMConfig.default, []⟩ (by decide) (by decide),
    (h.2.2.2 ⟨[0, 0], 1, [0x44, 7], 2, 0, VMConfig.default, []⟩ 7 (by decide)).1 (by decide),
    (h.2.2.2 ⟨[0, 0], 1, [0x44, 7], 2, 1, VMConfig.default, []⟩ 7 (by decide)).2 (by decide)⟩

/-- C8 counterexample: an input with the label `dup` on two label lines is NOT
rejected with `InvalidLabel` — it assembles successfully (to `FF 40 01`, the
jump resolving to the second occurrence's address 1). -/
theorem c8_counterexample :
    Assembler.new.assembleBytes "dup:\nHALT\ndup:\nJMP dup" = Except.ok [0xFF, 0x40, 1] := by
  set_option maxRecDepth 10000 in decide

/-- C8 (amended): `first_pass` does not detect duplicate labels: processing a
label line always succeeds for a well-formed name and (re)binds it to the
current address, overwriting any earlier entry, so the duplicate-`dup`
program assembles and references resolve to the last occurrence. -/
theorem c8_amended_duplicate_labels_overwrite :
    (∀ a : Assembler,
      Assembler.processLine a ['d', 'u', 'p', ':'] =
        Except.ok { a with labels := labelInsert a.labels "dup" a.current_address }) ∧
    Assembler.new.assembleBytes "dup:\nHALT\ndup:\nJMP dup" = Except.ok [0xFF, 0x40, 1] := by
  refine ⟨fun a => rfl, ?_⟩
  set_option maxRecDepth 10000 in decide

/-- C9 counterexample: on one and the same `Assembler` instance, assembling
`HALT` twice is not byte-identical — the first call returns `FF`, the second
returns `FF FF` because `first_pass` never clears `self.instructions`. -/
theorem c9_counterexample :
    (Assembler.new.assemble "HALT").map Prod.fst = Except.ok [0xFF] ∧
    ((Assembler.new.assemble "HALT").bind fun r => (r.2.assemble "HALT").map Prod.fst) =
      Except.ok [0xFF, 0xFF] := by
  constructor
  · rfl
  · rfl

/-- C9 (amended): assembly on a fresh `Assembler` is a pure function of the
text, but a second `assemble` of the same text on the same instance is not
byte-identical to the first: the instruction list accumulates (and the label
map is re-inserted unchanged), so the second call returns `b ++ b` whenever
the first returned `b`. -/
theorem c9_amended_second_call_appends (t : String) (b : List Nat) (a1 : Assembler)
    (h : Assembler.new.assemble t = Except.ok (b, a1)) :
    ∃ a2, a1.assemble t = Except.ok (b ++ b, a2) := by
  have hnew : Assembler.new.first_pass t =
      Assembler.first_pass_lines ⟨[], emptyLabels, 0⟩ (splitOnChar '\n' t.data) := rfl
  unfold Assembler.assemble at h
  rw [hnew] at h
  cases hf : Assembler.first_pass_lines ⟨[], emptyLabels, 0⟩ (splitOnChar '\n' t.data) with
  | error e => rw [hf] at h; simp [Except.bind, bind] at h
  | ok a0 =>
    rw [hf] at h
    simp only [Except.bind, bind] at h
    cases hs : a0.second_pass with
    | error e => rw [hs] at h; simp at h
    | ok b0 =>
      rw [hs] at h
      simp only [Except.ok.injEq, Prod.mk.injEq] at h
      obtain ⟨hb, ha⟩ := h
      subst hb
      subst ha
      refine ⟨⟨a0.instructions ++ a0.instructions, overlay a0.labels a0.labels,
        a0.current_address⟩, ?_⟩
      unfold Assembler.assemble
      have h1 : a0.first_pass t =
          Assembler.first_pass_lines ⟨a0.instructions, a0.labels, 0⟩
            (splitOnChar '\n' t.data) := rfl
      rw [h1, first_pass_lines_shift, hf]
      have hsp : Assembler.second_pass
          ⟨a0.instructions ++ a0.instructions, overlay a0.labels a0.labels,
            a0.current_address⟩ = Except.ok (b0 ++ b0) := by
        unfold Assembler.second_pass
        simp only [overlay_self]
        rw [emitAll_append]
        have hemit : Assembler.emitAll a0.labels a0.instructions = Except.ok b0 := hs
        rw [hemit]
        simp [Except.bind, bind, Except.map]
      simp only [Except.map, liftA, Except.bind, bind]
      rw [hsp]

/-- Concrete instance: after a first `assemble "HALT"` (which returns `FF` and
leaves one parsed instruction behind), the second call returns `FF FF`. -/
theorem c9_amended_second_call_appends_witness :
    ∃ a2, (⟨[⟨"HALT", []⟩], emptyLabels, 1⟩ : Assembler).assemble "HALT" =
      Except.ok ([0xFF, 0xFF], a2) :=
  c9_amended_second_call_appends "HALT" [0xFF] ⟨[⟨"HALT", []⟩], emptyLabels, 1⟩ (by rfl)

/-- C10: fetching byte `0x00` decodes to `Unknown(0)` and `run` aborts with
`InvalidOpcode(0)` (pc already advanced past the opcode byte); and `run`
returns without error only when the final `pc` has reached `memory_size` —
so a loaded program that runs into zeroed memory faults rather than
terminating normally. -/
theorem c10_zero_byte_invalid_opcode :
    (∀ (c : CPU) (fuel : Nat), c.pc < c.memory.length → c.memory[c.pc]? = some 0 →
      run (fuel + 1) c = RunR.err (VMError.InvalidOpcode 0) { c with pc := c.pc + 1 }) ∧
    (∀ (fuel : Nat) (c c2 : CPU), run fuel c = RunR.ok c2 → c2.memory.length ≤ c2.pc) := by
  refine ⟨?_, ?_⟩
  · intro c fuel hp h1
    simp [run, hp, fetch, readMemO, h1, execute, Nat.not_le.mpr hp]
  · intro fuel c c2 h
    exact run_ok_pc fuel c c2 h

/-- Concrete instance: a fresh default CPU with no program loaded (memory all
zero) faults immediately with `InvalidOpcode(0)`; a CPU whose `pc` is already
at `memory_size` exits `run` normally with `pc` at the end. -/
theorem c10_zero_byte_invalid_opcode_witness :
    run 1 (CPU.new VMConfig.default) =
      RunR.err (VMError.InvalidOpcode 0) { CPU.new VMConfig.default with pc := 1 } ∧
    ({ CPU.new VMConfig.default with pc := 256 } : CPU).memory.length ≤ 256 := by
  have h := c10_zero_byte_invalid_opcode
  refine ⟨h.1 (CPU.new VMConfig.default) 0 (by set_option maxRecDepth 10000 in decide)
    (by set_option maxRecDepth 10000 in decide), ?_⟩
  have h2 := h.2 1 { CPU.new VMConfig.default with pc := 256 }
    { CPU.new VMConfig.default with pc := 256 }
    (by set_option maxRecDepth 10000 in decide)
  exact h2
